import Mathlib

/-!
Verification development for the WMM (World Magnetic Model) implementation
in `ahrs/utils/wmm.py`.

The numeric core of the program (Legendre recursions, coefficient
denormalization, spherical-harmonic synthesis) is embedded below.  Python
floats are modelled as exact field elements: the recursions are polynomial
or rational in the trigonometric values of the evaluation point, so they are
stated over an arbitrary `Field K` (instantiated at `ℚ` for decidable
evaluations and at `ℝ` for the full pipeline, which needs `sqrt`, `sin`,
`cos`, `arcsin`).

Array-to-function translation: the numpy arrays `k`, `P`, `dP`, `S`, `c`,
`cd` indexed `[m, n]` (order `m` = row, degree `n` = column) become functions
`ℕ → ℕ → K`.  Every cell in the loop region is written exactly once, and
each assignment only reads cells of strictly earlier columns (or the unwritten
initial values), so the loops of `denormalize_coefficients` are faithfully
rendered as structural recursions on the column index: the recursive
definition of a cell is literally the right-hand side of its unique
assignment.  Python's negative index `-1` (arising at column `n = 1` from the
reads `P[m, n-2]` and `dP[m, n-2]`) wraps to the last column of the array,
which at that moment still holds its initial value; those reads are rendered
explicitly below.
-/

namespace WMM

section GenericField

variable (K : Type) [Field K] [DecidableEq K]

/-- `k[m, n] = ((n-1)**2 - m**2) / ((2*n-1)*(2*n-3))` as assigned in
`denormalize_coefficients` (line `self.k[m, n] = ...`) for every cell of the
loop region `1 ≤ n ≤ degree`, `0 ≤ m ≤ n`. -/
def kF (m n : ℕ) : K :=
  (((n : K) - 1) ^ 2 - (m : K) ^ 2) / ((2 * (n : K) - 1) * (2 * (n : K) - 3))

variable (N : ℕ) (sl cl : K)

/-- The Legendre table `self.P` of `denormalize_coefficients`, for model
degree `N`, with `sl = sin(lat')` and `cl = cos(lat')`.  Initialized as
`np.identity(degree+2)`; the loop writes, for `1 ≤ n ≤ N` and `m ≤ n`:
`P[m, n] = cos_lat*P[m-1, n-1]` when `m = n`, else
`P[m, n] = sin_lat*P[m, n-1] - k[m, n]*P[m, n-2]`.
At `n = 1` the read `P[m, n-2]` is python's `P[m, -1]`, the last column
`N + 1` of the identity, never written by the loop. -/
def Pt : ℕ → ℕ → K
  | m, 0 => if m = 0 then 1 else 0
  | m, 1 =>
    if 1 ≤ N ∧ m ≤ 1 then
      if m = 1 then cl * Pt 0 0
      else sl * Pt m 0 - kF K m 1 * (if m = N + 1 then 1 else 0)
    else if m = 1 then 1 else 0
  | m, n + 2 =>
    if n + 2 ≤ N ∧ m ≤ n + 2 then
      if m = n + 2 then cl * Pt (m - 1) (n + 1)
      else sl * Pt m (n + 1) - kF K m (n + 2) * Pt m n
    else if m = n + 2 then 1 else 0

/-- The derivative table `self.dP` of `denormalize_coefficients`.
Initialized as `np.zeros((degree+2, degree+1))`; the loop writes, for
`1 ≤ n ≤ N` and `m ≤ n`:
`dP[m, n] = cos_lat*dP[m-1, n-1] + sin_lat*P[m-1, n-1]` when `m = n`, else
`dP[m, n] = sin_lat*dP[m, n-1] - cos_lat*P[m, n-1] - k[m, n]*dP[m, n-2]`.
At `n = 1` the read `dP[m, n-2]` is python's `dP[m, -1]`, i.e. the cell
`dP[m, N]`, which still holds its initial value `0` at that point of the
traversal. -/
def dPt : ℕ → ℕ → K
  | _, 0 => 0
  | m, 1 =>
    if 1 ≤ N ∧ m ≤ 1 then
      if m = 1 then cl * dPt 0 0 + sl * Pt K N sl cl 0 0
      else sl * dPt m 0 - cl * Pt K N sl cl m 0 - kF K m 1 * 0
    else 0
  | m, n + 2 =>
    if n + 2 ≤ N ∧ m ≤ n + 2 then
      if m = n + 2 then
        cl * dPt (m - 1) (n + 1) + sl * Pt K N sl cl (m - 1) (n + 1)
      else
        sl * dPt m (n + 1) - cl * Pt K N sl cl m (n + 1)
          - kF K m (n + 2) * dPt m n
    else 0

/-- The in-place scaling of a coefficient array performed by
`denormalize_coefficients` (the same traversal scales both `self.c` and
`self.cd`): for `1 ≤ n ≤ N`, `m ≤ n` the g-slot `c[m, n]` is multiplied by
`S[m, n]`, and for `1 ≤ m ≤ n` the transposed h-slot `c[n, m-1]` is
multiplied by `S[m, n]`.  G-slots lie on or above the diagonal, h-slots
strictly below it, so each cell is scaled at most once.  `S` is passed as a
function (the code computes it in the same loop; its values are embedded
separately at `ℝ` since they involve square roots). -/
def denormC (S c : ℕ → ℕ → K) (r q : ℕ) : K :=
  if 1 ≤ q ∧ q ≤ N ∧ r ≤ q then c r q * S r q
  else if q < r ∧ r ≤ N then c r q * S (q + 1) r
  else c r q

variable (c cd : ℕ → ℕ → K) (dt ar : K) (sp cp : ℕ → K)

/-- Time-extrapolated main coefficient: `self.gh[m, n] = self.c[m, n] +
dt*self.cd[m, n]` (eq. 9 of the report, line 812 of the source). -/
def ghG (m n : ℕ) : K := c m n + dt * cd m n

/-- Time-extrapolated secular (h) coefficient, stored at the transposed slot:
`self.gh[n, m-1] = self.c[n, m-1] + dt*self.cd[n, m-1]` (line 817), only
formed when `m > 0`. -/
def ghH (m n : ℕ) : K := c n (m - 1) + dt * cd n (m - 1)

/-- `gchs = gh[m,n]*cp[m]` plus, when `m > 0`, `gh[n,m-1]*sp[m]`
(lines 814 and 818): the term `g(t)cos(mλ) + h(t)sin(mλ)`. -/
def gchsF (m n : ℕ) : K :=
  ghG K c cd dt m n * cp m + if 0 < m then ghH K c cd dt m n * sp m else 0

/-- `gshc = gh[m,n]*sp[m]` minus, when `m > 0`, `gh[n,m-1]*cp[m]`
(lines 815 and 819): the term `g(t)sin(mλ) - h(t)cos(mλ)`. -/
def gshcF (m n : ℕ) : K :=
  ghG K c cd dt m n * sp m - if 0 < m then ghH K c cd dt m n * cp m else 0

/-- One iteration of the inner loop `for m in range(n+1)` of
`magnetic_field` (lines 811-827), acting on the scratch state
`(x_p, y_p, z_p, Bp)`.  The pole accumulator `Bp` is updated only when
`cos_lat == 0.0 and m == 1`: first `Bp += ar**(n+2) * gshc`, then, if
`n > 1`, the whole accumulator is multiplied by `sin_lat - k[m, n]`. -/
def innerStep (n m : ℕ) (s : K × K × K × K) : K × K × K × K :=
  let x := s.1
  let y := s.2.1
  let z := s.2.2.1
  let B := s.2.2.2
  let B1 :=
    if cl = 0 ∧ m = 1 then
      let Ba := B + ar ^ (n + 2) * gshcF K c cd dt sp cp m n
      if 1 < n then Ba * (sl - kF K m n) else Ba
    else B
  (x + gchsF K c cd dt sp cp m n * dPt K N sl cl m n,
   y + (m : K) * gshcF K c cd dt sp cp m n * Pt K N sl cl m n,
   z + gchsF K c cd dt sp cp m n * Pt K N sl cl m n,
   B1)

/-- State of the inner loop of degree `n` after processing the orders
`0, 1, ..., j-1`, starting from `x_p = y_p = z_p = 0` and the incoming
pole accumulator `B0`.  The full inner loop is `innerUpTo n B0 (n+1)`. -/
def innerUpTo (n : ℕ) (B0 : K) : ℕ → K × K × K × K
  | 0 => (0, 0, 0, B0)
  | j + 1 => innerStep K N sl cl c cd dt ar sp cp n j (innerUpTo n B0 j)

/-- State `(Xp, Yp, Zp, Bp)` of the outer loop `for n in range(1, degree+1)`
of `magnetic_field` after the degrees `1, ..., n`: per degree,
`Xp += ar**(n+2) * x_p`, `Yp += ar**(n+2) * y_p`,
`Zp -= (n+1) * ar**(n+2) * z_p` (lines 828-830). -/
def outerUpTo : ℕ → K × K × K × K
  | 0 => (0, 0, 0, 0)
  | n + 1 =>
    let s := outerUpTo n
    let inner := innerUpTo K N sl cl c cd dt ar sp cp (n + 1) s.2.2.2 (n + 2)
    (s.1 + ar ^ (n + 3) * inner.1,
     s.2.1 + ar ^ (n + 3) * inner.2.1,
     s.2.2.1 - ((n : K) + 2) * ar ^ (n + 3) * inner.2.2.1,
     inner.2.2.2)

/-- Final easterly spherical component:
`Yp = Bp if cos_lat == 0.0 else Yp/cos_lat` (line 831). -/
def YpFinal : K :=
  let s := outerUpTo K N sl cl c cd dt ar sp cp N
  if cl = 0 then s.2.2.2 else s.2.1 / cl

/-- The pole accumulator written only from the `m = 1` terms: for each
degree `n` it adds `ar^(n+2) * (g(t)sin(λ) - h(t)cos(λ))` (the `m = 1`
instance of `gshc`) and, for `n > 1`, multiplies the accumulated value by
`sin(lat') - k[1, n]`.  This is the spec-side description of `Bp`, to be
compared with the `Bp` component produced by the full double loop. -/
def BpOnly : ℕ → K
  | 0 => 0
  | n + 1 =>
    let Ba := BpOnly n + ar ^ (n + 3) * gshcF K c cd dt sp cp 1 (n + 1)
    if 1 < n + 1 then Ba * (sl - kF K 1 (n + 1)) else Ba

end GenericField

section Dates

/-- Python's `round` (banker's rounding, round-half-to-even) on an exact
rational.  The float arguments arising in the source are never exact ties,
where the two conventions could differ. -/
def roundHE (x : ℚ) : ℤ :=
  let f := ⌊x⌋
  if x - f < 1 / 2 then f
  else if 1 / 2 < x - f then f + 1
  else if Even f then f else f + 1

/-- `round(x, 1)`: rounding to one decimal place, used for the time offset
`dt = round(self.date_dec, 1) - self.epoch` (line 799). -/
def round1 (x : ℚ) : ℚ := (roundHE (10 * x) : ℚ) / 10

/-- `dt = round(self.date_dec, 1) - self.epoch`. -/
def dtOf (dateDec epoch : ℚ) : ℚ := round1 dateDec - epoch

/-- The two coefficient tables shipped with the module. -/
inductive Epoch
  | wmm2015
  | wmm2020
  deriving DecidableEq

/-- Epoch-table selection of `reset_date` (line 555):
`self.wmm_filename = 'WMM2015/WMM.COF' if self.date_dec < 2020.0 else
'WMM2020/WMM.COF'`. -/
def selectEpoch (dateDec : ℚ) : Epoch :=
  if dateDec < 2020 then Epoch.wmm2015 else Epoch.wmm2020

/-- Proleptic-Gregorian leap-year test, as in `datetime`. -/
def isLeap (y : ℕ) : Bool := y % 4 = 0 ∧ (y % 100 ≠ 0 ∨ y % 400 = 0)

/-- Number of days strictly before January 1 of year `y` (year `y ≥ 1`),
so that `date(y, 1, 1).toordinal() = daysBeforeYear y + 1` as in
`datetime`. -/
def daysBeforeYear (y : ℕ) : ℕ :=
  365 * (y - 1) + (y - 1) / 4 - (y - 1) / 100 + (y - 1) / 400

/-- The year of a proleptic-Gregorian ordinal (ordinal 1 = 0001-01-01),
following the year-extraction steps of `datetime.date.fromordinal`
(CPython's `_ord2ymd`). -/
def yearOfOrdinal (o : ℕ) : ℕ :=
  let n := o - 1
  let n400 := n / 146097
  let r400 := n % 146097
  let n100 := r400 / 36524
  let r100 := r400 % 36524
  let n4 := r100 / 1461
  let r4 := r100 % 1461
  let n1 := r4 / 365
  let year := 400 * n400 + 100 * n100 + 4 * n4 + n1 + 1
  if n1 = 4 ∨ n100 = 4 then year - 1 else year

/-- The errors surfaced by the model (`TypeError`s for ill-typed arguments
are excluded: the embedding is typed). -/
inductive WMMError
  | invalidLatitude
  | invalidLongitude
  | invalidFrame
  | unsupportedDate
  deriving DecidableEq

/-- For a `datetime.date` argument, `reset_date` keeps the date and raises
`ValueError("No available coefficients for dates before 2015.")` exactly
when `self.date.year < 2015` (lines 553-554). -/
def resetDateFromDate (year : ℤ) : Option WMMError :=
  if year < 2015 then some WMMError.unsupportedDate else none

/-- The year of the `datetime.date` that `reset_date` derives from a decimal
year `d` (line 547):
`datetime.date.fromordinal(round(datetime.date(int(date), 1, 1).toordinal()
+ (self.date_dec - int(self.date_dec)) * 365))`.
Assumes `1 ≤ d` (so `int(d) = ⌊d⌋` and the `datetime.date` constructor
accepts the year). -/
def derivedYearOfDecimal (d : ℚ) : ℕ :=
  let y0 := (⌊d⌋).toNat
  yearOfOrdinal (roundHE ((daysBeforeYear y0 + 1 : ℚ) + (d - y0) * 365)).toNat

/-- `reset_date` for a decimal-year argument: the year check is performed on
the derived `datetime.date`, not on the decimal input. -/
def resetDateFromDecimal (d : ℚ) : Option WMMError :=
  if (derivedYearOfDecimal d : ℤ) < 2015 then some WMMError.unsupportedDate
  else none

end Dates

section Guards

/-- The membership test `self.frame.upper() in ['NED', 'ENU']`, at the
character level: python's `str.upper` upper-cases each character. -/
def frameOk (frame : String) : Prop :=
  frame.data.map Char.toUpper = "NED".data ∨
  frame.data.map Char.toUpper = "ENU".data

instance : DecidablePred frameOk := fun _f =>
  inferInstanceAs (Decidable (_ ∨ _))

/-- `WMM._guard_clauses` (lines 398-409) for well-typed arguments: raises
`ValueError` for `abs(latitude) > 90`, then for `abs(longitude) > 180`,
then for a frame whose upper-casing is neither `'NED'` nor `'ENU'`. -/
def guardClauses (lat lon : ℚ) (frame : String) : Option WMMError :=
  if 90 < |lat| then some WMMError.invalidLatitude
  else if 180 < |lon| then some WMMError.invalidLongitude
  else if ¬ frameOk frame then some WMMError.invalidFrame
  else none

/-- The error behaviour of a direct call to `WMM.magnetic_field`
(lines 782-849): the body never calls `_guard_clauses`; for well-typed
arguments the only raise reachable from it is the year check of
`reset_date`, performed through `reset_coefficients` when `date` is not
`None`.  All remaining statements are numpy float arithmetic, which does
not raise on any float input.  `dateYear` is the year of the model date
derived from the `date` argument. -/
def magneticFieldError (dateGiven : Bool) (dateYear : ℤ)
    (_lat _lon : ℚ) (_frame : String) : Option WMMError :=
  if dateGiven ∧ dateYear < 2015 then some WMMError.unsupportedDate else none

/-- The error behaviour of the constructor `WMM.__init__` (lines 382-396):
it first runs `reset_coefficients(date)` (whose only raise for well-typed
arguments is the year check) and then `_guard_clauses()`. -/
def initError (dateGiven : Bool) (dateYear : ℤ)
    (lat lon : ℚ) (frame : String) : Option WMMError :=
  if dateGiven ∧ dateYear < 2015 then some WMMError.unsupportedDate
  else guardClauses lat lon frame

end Guards

section RealPipeline

open Real

/-- Modelled from the spec: `DEG2RAD`, the degree→radian conversion constant
(collaborator input from `ahrs.common.constants`, not under `src/`). -/
noncomputable def DEG2RAD : ℝ := Real.pi / 180

/-- Modelled from the spec: `RAD2DEG`, the radian→degree conversion
constant. -/
noncomputable def RAD2DEG : ℝ := 180 / Real.pi

/-- Modelled from the spec: `EARTH_EQUATOR_RADIUS/1000.0`, the major
semi-axis default of `geodetic2spherical` in kilometers (spec 4.2:
`a = 6378.137`). -/
def aEquatorKm : ℝ := 6378.137

/-- Modelled from the spec: `EARTH_POLAR_RADIUS/1000.0`, the minor semi-axis
default of `geodetic2spherical` in kilometers (spec 4.2:
`b = 6356.752314245`). -/
def bPolarKm : ℝ := 6356.752314245

/-- Modelled from the spec: `EARTH_MEAN_RADIUS`, the mean Earth radius in
meters (collaborator constant; WGS 84 value).  No claim depends on its
numeric value. -/
def EARTH_MEAN_RADIUS : ℝ := 6371008.7714

/-- `np.linalg.norm` of a 2-vector: the Euclidean norm
`sqrt(x**2 + y**2)`. -/
noncomputable def normTwo (x y : ℝ) : ℝ := Real.sqrt (x ^ 2 + y ^ 2)

/-- `geodetic2spherical(lat, lon, h, a, b)` (lines 222-268): geodetic to
spherical geocentric coordinates, returning
`(lat_spheric, lon, r)`. -/
noncomputable def geodetic2spherical (lat lon h : ℝ)
    (a : ℝ := aEquatorKm) (b : ℝ := bPolarKm) : ℝ × ℝ × ℝ :=
  let f := (a - b) / a
  let e2 := f * (2 - f)
  let Rc := a / Real.sqrt (1 - e2 * Real.sin lat ^ 2)
  let rho := (Rc + h) * Real.cos lat
  let z := (Rc * (1 - e2) + h) * Real.sin lat
  let r := normTwo rho z
  (Real.arcsin (z / r), lon, r)

/-- The pair `(sp[m], cp[m])` of longitude multiple-angle tables built in
`magnetic_field` (lines 792-798): `sp[0] = 0`, `cp[0] = 1`,
`sp[1] = sin(λ)`, `cp[1] = cos(λ)`, and for `m ≥ 2`
`sp[m] = sp[1]*cp[m-1] + cp[1]*sp[m-1]`,
`cp[m] = cp[1]*cp[m-1] - sp[1]*sp[m-1]`. -/
def spcp (K : Type) [Field K] (s1 c1 : K) : ℕ → K × K
  | 0 => (0, 1)
  | 1 => (s1, c1)
  | m + 2 =>
    let prev := spcp K s1 c1 (m + 1)
    (s1 * prev.2 + c1 * prev.1, c1 * prev.2 - s1 * prev.1)

/-- The Schmidt scale-factor table `S` computed inside
`denormalize_coefficients` (lines 678-691): `S = np.identity(degree+1)`;
for `1 ≤ n ≤ N`: `S[0, n] = S[0, n-1]*(2*n-1)/n`, and for `1 ≤ m ≤ n`:
`S[m, n] = S[m-1, n]*np.sqrt((n-m+1)*(delta+1)/(n+m))` where the Kronecker
`delta` is `1` exactly for the first `m > 0` of each column (i.e. `m = 1`).
Cells outside the written region keep their identity values. -/
noncomputable def Sf (N : ℕ) : ℕ → ℕ → ℝ
  | 0, 0 => 1
  | 0, q + 1 =>
    if q + 1 ≤ N then Sf N 0 q * (2 * ((q : ℝ) + 1) - 1) / ((q : ℝ) + 1)
    else 0
  | m + 1, q =>
    if m + 1 ≤ q ∧ q ≤ N then
      Sf N m q * Real.sqrt (((q : ℝ) - ((m : ℝ) + 1) + 1)
        * ((if m = 0 then 1 else 0) + 1) / ((q : ℝ) + ((m : ℝ) + 1)))
    else if m + 1 = q then 1 else 0
termination_by m q => (m, q)

/-- Two-argument arctangent `np.arctan2(y, x)`, with range `(-π, π]`,
realized as the argument of the complex number `x + i y`. -/
noncomputable def arctan2 (y x : ℝ) : ℝ :=
  Complex.arg (Complex.I * (y : ℂ) + (x : ℂ))

/-- Modelled from the spec: the fixed NED→ENU permutation/negation helper
`ned2enu` (collaborator from `ahrs.common.frames`, not under `src/`):
`(N, E, D) ↦ (E, N, -D)`. -/
def ned2enu (v : ℝ × ℝ × ℝ) : ℝ × ℝ × ℝ := (v.2.1, v.1, -v.2.2)

/-- Grivation as computed at the end of `magnetic_field` (lines 845-849):
`GV = D`; then `GV -= longitude` if `latitude > 55.0`; then
`GV += longitude` if `latitude < -55.0`. -/
noncomputable def grivationOf (D lat lon : ℝ) : ℝ :=
  let gv := D
  let gv1 := if 55 < lat then gv - lon else gv
  if lat < -55 then gv1 + lon else gv1

/-- The published snapshot `{X, Y, Z, H, F, I, D, GV}`. -/
structure Elements where
  X : ℝ
  Y : ℝ
  Z : ℝ
  H : ℝ
  F : ℝ
  I : ℝ
  D : ℝ
  GV : ℝ

/-- The computation performed by one call of `WMM.magnetic_field`
(lines 782-849) on exact arithmetic, starting from the coefficient arrays
`c0`, `cd0` (the state of `self.c`, `self.cd` when `denormalize_coefficients`
runs), the epoch `t0` and decimal date, the geodetic location in decimal
degrees and kilometers, and the frame flag (`frame.upper() == 'ENU'`).
Mirrors the source line by line: coordinate conversion, multiple-angle
tables, `dt`, in-place denormalization, spherical-harmonic synthesis with
the pole branch, rotation by `lat' - lat`, optional NED→ENU swap, and the
derived elements. -/
noncomputable def magneticFieldCompute (N : ℕ) (epoch dateDec : ℚ)
    (c0 cd0 : ℕ → ℕ → ℝ) (lat lon h : ℝ) (frameENU : Bool) : Elements :=
  let latr := lat * DEG2RAD
  let lonr := lon * DEG2RAD
  let g := geodetic2spherical latr lonr h
  let latp := g.1
  let r := g.2.2
  let sp := fun m => (spcp ℝ (Real.sin lonr) (Real.cos lonr) m).1
  let cp := fun m => (spcp ℝ (Real.sin lonr) (Real.cos lonr) m).2
  let dt : ℝ := ((dtOf dateDec epoch : ℚ) : ℝ)
  let cD := denormC ℝ N (Sf N) c0
  let cdD := denormC ℝ N (Sf N) cd0
  let sl := Real.sin latp
  let cl := Real.cos latp
  let ar := EARTH_MEAN_RADIUS / 1000 / r
  let acc := outerUpTo ℝ N sl cl cD cdD dt ar sp cp N
  let Yp := if cl = 0 then acc.2.2.2 else acc.2.1 / cl
  let X0 := acc.1 * Real.cos (latp - latr) - acc.2.2.1 * Real.sin (latp - latr)
  let Z0 := acc.1 * Real.sin (latp - latr) + acc.2.2.1 * Real.cos (latp - latr)
  let v := if frameENU then ned2enu (X0, Yp, Z0) else (X0, Yp, Z0)
  let dD := RAD2DEG * arctan2 v.2.1 v.1
  { X := v.1
    Y := v.2.1
    Z := v.2.2
    H := normTwo v.1 v.2.1
    F := normTwo (normTwo v.1 v.2.1) v.2.2
    I := RAD2DEG * arctan2 v.2.2 (normTwo v.1 v.2.1)
    D := dD
    GV := grivationOf dD lat lon }

/-- The mutable coefficient state owned by a `WMM` object: the arrays
`self.c`, `self.cd` and the scalars `self.epoch`, `self.date_dec`. -/
structure CoeffState where
  c : ℕ → ℕ → ℝ
  cd : ℕ → ℕ → ℝ
  epoch : ℚ
  dateDec : ℚ

/-- A call of `WMM.magnetic_field` as a state transformer.  When `date` is
not `None` (`dateOpt = some d`), `reset_coefficients` reloads the pristine
table from the COF file and resets epoch/date; when `date` is `None`, the
current arrays are reused as they are (line 782: `if date is not None`).
`denormalize_coefficients` then scales `self.c` and `self.cd` in place, so
the returned state carries the scaled arrays. -/
noncomputable def magneticFieldCall (N : ℕ) (tableC tableCd : ℕ → ℕ → ℝ)
    (tableEpoch : ℚ) (st : CoeffState) (lat lon h : ℝ) (frameENU : Bool)
    (dateOpt : Option ℚ) : CoeffState × Elements :=
  let st1 : CoeffState := match dateOpt with
    | some d =>
      { c := tableC, cd := tableCd, epoch := tableEpoch, dateDec := d }
    | none => st
  (({ c := denormC ℝ N (Sf N) st1.c, cd := denormC ℝ N (Sf N) st1.cd,
      epoch := st1.epoch, dateDec := st1.dateDec } : CoeffState),
   magneticFieldCompute N st1.epoch st1.dateDec st1.c st1.cd lat lon h frameENU)

/-- The magnetic-element attributes of a freshly constructed `WMM` object:
each is either `None` or a computed float. -/
structure WMMObject where
  X : Option ℝ
  Y : Option ℝ
  Z : Option ℝ
  H : Option ℝ
  F : Option ℝ
  I : Option ℝ
  D : Option ℝ
  GV : Option ℝ

/-- The element attributes produced by `WMM.__init__` (lines 382-396) for
arguments that pass the guard clauses: the eight attributes are set to
`None`, and the initial `magnetic_field` call happens only under
`if all([self.latitude, self.longitude])` — a truthiness test on the two
floats, which is `False` whenever either coordinate equals `0.0`. -/
noncomputable def initWMM (N : ℕ) (tableC tableCd : ℕ → ℕ → ℝ)
    (tableEpoch dateDec : ℚ) (lat lon h : ℝ) (frameENU : Bool) : WMMObject :=
  if lat ≠ 0 ∧ lon ≠ 0 then
    let e := magneticFieldCompute N tableEpoch dateDec tableC tableCd
      lat lon h frameENU
    { X := some e.X, Y := some e.Y, Z := some e.Z, H := some e.H,
      F := some e.F, I := some e.I, D := some e.D, GV := some e.GV }
  else
    { X := none, Y := none, Z := none, H := none,
      F := none, I := none, D := none, GV := none }

end RealPipeline

section ClaimStatements

/-- The derivative recursion exactly as the specification states it
(spec 4.3 / claim C4): `dP(0,0) = 1`;
`dP(n,n) = sin(lat')*dP(n-1,n-1) + cos(lat')*P(n-1,n-1)`; otherwise
`dP(n,m) = sin(lat')*dP(n,m-1) - cos(lat')*P(n,m-1) - k(n,m)*dP(n,m-2)`,
over the tables actually built by the code, read positionally (the spec's
index pair denotes the array cell, first index = row).  This is the
spec-side predicate, to be compared with the tables produced by the
source's recursion. -/
def ClaimC4Recursion (K : Type) [Field K] (N : ℕ) (sl cl : K) : Prop :=
  dPt K N sl cl 0 0 = 1 ∧
  ∀ n : ℕ, n ≤ N → 1 ≤ n → ∀ m : ℕ, m ≤ n →
    (m = n →
      dPt K N sl cl n n
        = sl * dPt K N sl cl (n - 1) (n - 1)
          + cl * Pt K N sl cl (n - 1) (n - 1)) ∧
    (m < n →
      dPt K N sl cl m n
        = sl * dPt K N sl cl m (n - 1) - cl * Pt K N sl cl m (n - 1)
          - kF K m n * dPt K N sl cl m (n - 2))

/-- The everywhere-zero coefficient array. -/
def zeroTable : ℕ → ℕ → ℝ := fun _ _ => 0

/-- A coefficient array whose only nonzero entry is the g-slot
`(m, n) = (1, 2)` (degree 2, order 1), holding `v`. -/
def cSingle (v : ℝ) : ℕ → ℕ → ℝ := fun m n => if m = 1 ∧ n = 2 then v else 0

/-- The coefficient state of a degree-2 model right after construction with
`latitude = 0` (so the constructor's initial `magnetic_field` call is
skipped and the loaded arrays are still pristine): table with the single
entry `g(n=2, m=1) = 1`, zero secular table, epoch 2015.0, decimal date
2015.0. -/
noncomputable def c2State0 : CoeffState :=
  { c := cSingle 1, cd := zeroTable, epoch := 2015, dateDec := 2015 }

/-- First `magnetic_field(0, 0, 0, date=None)` call on that model. -/
noncomputable def c2Call1 : CoeffState × Elements :=
  magneticFieldCall 2 (cSingle 1) zeroTable 2015 c2State0 0 0 0 false none

/-- Second `magnetic_field(0, 0, 0, date=None)` call, with identical
arguments, on the state left behind by the first call. -/
noncomputable def c2Call2 : CoeffState × Elements :=
  magneticFieldCall 2 (cSingle 1) zeroTable 2015 c2Call1.1 0 0 0 false none

end ClaimStatements

/-- Helper: python `round` at a value whose fractional part is below
one half. -/
theorem roundHE_lo (x : ℚ) (z : ℤ) (h1 : (z : ℚ) ≤ x) (h2 : x - z < 1/2) :
    roundHE x = z := by
  have hf : ⌊x⌋ = z := by
    rw [Int.floor_eq_iff]
    exact ⟨h1, by linarith⟩
  simp only [roundHE, hf]
  rw [if_pos h2]

/-- Helper: python `round` at a value whose fractional part is above
one half. -/
theorem roundHE_hi (x : ℚ) (z : ℤ) (h1 : 1/2 < x - z) (h2 : x < z + 1) :
    roundHE x = z + 1 := by
  have hf : ⌊x⌋ = z := by
    rw [Int.floor_eq_iff]
    exact ⟨by linarith, h2⟩
  simp only [roundHE, hf]
  rw [if_neg (by linarith), if_pos h1]

section BpLemmas

variable (K : Type) [Field K] [DecidableEq K]
variable (N : ℕ) (sl cl : K) (c cd : ℕ → ℕ → K) (dt ar : K) (sp cp : ℕ → K)

theorem innerUpTo_B_stable (n : ℕ) (B0 : K) :
    ∀ j, 2 ≤ j →
      (innerUpTo K N sl cl c cd dt ar sp cp n B0 j).2.2.2
        = (innerUpTo K N sl cl c cd dt ar sp cp n B0 2).2.2.2 := by
  intro j hj
  induction j with
  | zero => omega
  | succ j ih =>
    rcases Nat.lt_or_ge j 2 with hlt | hge
    · have h2 : j + 1 = 2 := by omega
      rw [h2]
    · have hj1 : ¬ (cl = 0 ∧ j = 1) := by
        rintro ⟨-, hj1⟩
        omega
      show (innerStep K N sl cl c cd dt ar sp cp n j
        (innerUpTo K N sl cl c cd dt ar sp cp n B0 j)).2.2.2 = _
      simp only [innerStep]
      rw [if_neg hj1]
      exact ih hge

theorem innerUpTo_B_two (n : ℕ) (B0 : K) (hcl : cl = 0) :
    (innerUpTo K N sl cl c cd dt ar sp cp n B0 2).2.2.2
      = (if 1 < n then
          (B0 + ar ^ (n + 2) * gshcF K c cd dt sp cp 1 n) * (sl - kF K 1 n)
         else B0 + ar ^ (n + 2) * gshcF K c cd dt sp cp 1 n) := by
  show (innerStep K N sl cl c cd dt ar sp cp n 1
    (innerStep K N sl cl c cd dt ar sp cp n 0
      (innerUpTo K N sl cl c cd dt ar sp cp n B0 0))).2.2.2 = _
  simp only [innerStep, innerUpTo]
  rw [if_neg (by simp : ¬ (cl = 0 ∧ (0:ℕ) = 1)), if_pos ⟨hcl, trivial⟩]

theorem innerLoop_B (n : ℕ) (B0 : K) (hcl : cl = 0) (hn : 1 ≤ n) :
    (innerUpTo K N sl cl c cd dt ar sp cp n B0 (n + 1)).2.2.2
      = (if 1 < n then
          (B0 + ar ^ (n + 2) * gshcF K c cd dt sp cp 1 n) * (sl - kF K 1 n)
         else B0 + ar ^ (n + 2) * gshcF K c cd dt sp cp 1 n) := by
  rw [innerUpTo_B_stable K N sl cl c cd dt ar sp cp n B0 (n + 1) (by omega)]
  exact innerUpTo_B_two K N sl cl c cd dt ar sp cp n B0 hcl

theorem outer_Bp_eq_BpOnly (hcl : cl = 0) :
    ∀ M, (outerUpTo K N sl cl c cd dt ar sp cp M).2.2.2
      = BpOnly K sl c cd dt ar sp cp M := by
  intro M
  induction M with
  | zero => rfl
  | succ n ih =>
    show (outerUpTo K N sl cl c cd dt ar sp cp (n + 1)).2.2.2 = _
    simp only [outerUpTo]
    rw [innerLoop_B K N sl cl c cd dt ar sp cp (n + 1) _ hcl (by omega)]
    rw [ih]
    simp only [BpOnly]

end BpLemmas


/-- Helper: at geodetic latitude π/2 the spherical conversion yields
spherical latitude π/2 and radius `b + h`. -/
theorem geodetic_pole_general (a b lon h : ℝ) (ha : 0 < a) (hb : 0 < b)
    (hh : 0 ≤ h) :
    geodetic2spherical (Real.pi / 2) lon h a b = (Real.pi / 2, lon, b + h) := by
  have hane : a ≠ 0 := ne_of_gt ha
  have hbne : b ≠ 0 := ne_of_gt hb
  have hba : (0:ℝ) < b / a := div_pos hb ha
  simp only [geodetic2spherical, normTwo, Real.sin_pi_div_two,
    Real.cos_pi_div_two]
  have h1 : 1 - (a - b) / a * (2 - (a - b) / a) * (1:ℝ) ^ 2 = (b / a) ^ 2 := by
    field_simp
    ring
  rw [h1, Real.sqrt_sq hba.le]
  have h2 : a / (b / a) * (1 - (a - b) / a * (2 - (a - b) / a)) + h = b + h := by
    field_simp
    ring
  rw [h2]
  have hbh : (0:ℝ) < b + h := by linarith
  have h3 : ((a / (b / a) + h) * 0) ^ 2 + ((b + h) * 1) ^ 2 = (b + h) ^ 2 := by
    ring
  rw [h3, Real.sqrt_sq hbh.le]
  rw [mul_one, div_self (ne_of_gt hbh), Real.arcsin_one]

/-- Helper: an evaluation at latitude 90.0° has `cos(lat') = 0`. -/
theorem geodetic_pole_lemma2 (lon h : ℝ) (hh : 0 ≤ h) :
    Real.cos ((geodetic2spherical ((90 : ℝ) * DEG2RAD) lon h).1) = 0 := by
  have h90 : (90 : ℝ) * DEG2RAD = Real.pi / 2 := by
    rw [DEG2RAD]
    ring
  rw [h90, geodetic_pole_general aEquatorKm bPolarKm lon h
    (by norm_num [aEquatorKm]) (by norm_num [bPolarKm]) hh]
  exact Real.cos_pi_div_two

/-- C1: at the geographic poles the synthesizer does not divide by
`cos(lat')`: an evaluation at latitude 90.0° reaches the synthesis loop
with `cos(lat') = 0` exactly, where the final `Yp` is supplied directly by
the pole accumulator `Bp`, which equals the fold `BpOnly` built only from
the `m = 1` order terms across the degrees `n = 1..N`, with the extra
factor `sin(lat') - k(1,n)` applied for `n > 1`. -/
theorem c1_pole_branch (lon h : ℝ) (hh : 0 ≤ h) (N : ℕ)
    (c cd : ℕ → ℕ → ℝ) (dt ar : ℝ) (sp cp : ℕ → ℝ) :
    Real.cos ((geodetic2spherical ((90 : ℝ) * DEG2RAD) lon h).1) = 0 ∧
    (∀ sl cl : ℝ, cl = 0 →
      YpFinal ℝ N sl cl c cd dt ar sp cp
        = (outerUpTo ℝ N sl cl c cd dt ar sp cp N).2.2.2 ∧
      (outerUpTo ℝ N sl cl c cd dt ar sp cp N).2.2.2
        = BpOnly ℝ sl c cd dt ar sp cp N) := by
  refine ⟨geodetic_pole_lemma2 lon h hh, fun sl cl hcl => ⟨?_, ?_⟩⟩
  · simp only [YpFinal]
    rw [if_pos hcl]
  · exact outer_Bp_eq_BpOnly ℝ N sl cl c cd dt ar sp cp hcl N

/-- Witness for C1 at a concrete height and synthesis parameters. -/
theorem c1_pole_branch_witness :
    (0 : ℝ) ≤ 10 ∧
    (Real.cos ((geodetic2spherical ((90 : ℝ) * DEG2RAD) 0 10).1) = 0 ∧
    (∀ sl cl : ℝ, cl = 0 →
      YpFinal ℝ 2 sl cl zeroTable zeroTable 0 1 (fun _ => 0) (fun _ => 1)
        = (outerUpTo ℝ 2 sl cl zeroTable zeroTable 0 1 (fun _ => 0)
            (fun _ => 1) 2).2.2.2 ∧
      (outerUpTo ℝ 2 sl cl zeroTable zeroTable 0 1 (fun _ => 0)
          (fun _ => 1) 2).2.2.2
        = BpOnly ℝ sl zeroTable zeroTable 0 1 (fun _ => 0) (fun _ => 1) 2)) :=
  ⟨by norm_num,
   c1_pole_branch 0 10 (by norm_num) 2 zeroTable zeroTable 0 1
     (fun _ => 0) (fun _ => 1)⟩

/-- Helper: at longitude 0 every multiple-angle pair is `(0, 1)`. -/
theorem spcp_zero_one (m : ℕ) : spcp ℝ 0 1 m = (0, 1) := by
  induction m with
  | zero => rfl
  | succ j ih =>
    match j, ih with
    | 0, _ => rfl
    | j + 1, ih =>
      show spcp ℝ 0 1 (j + 2) = (0, 1)
      simp only [spcp, ih]
      norm_num

/-- Helper: at geodetic latitude 0 and height 0 the spherical conversion
returns latitude 0 and radius `a`. -/
theorem geodetic_equator (lon a b : ℝ) (ha : 0 ≤ a) :
    geodetic2spherical 0 lon 0 a b = (0, lon, a) := by
  simp only [geodetic2spherical, normTwo, Real.sin_zero, Real.cos_zero]
  norm_num
  rw [Real.sqrt_sq ha]

/-- Helper: denormalization maps a zero entry to zero. -/
theorem denormC_of_zero_entry (N : ℕ) (S c : ℕ → ℕ → ℝ) (r q : ℕ)
    (hc : c r q = 0) : denormC ℝ N S c r q = 0 := by
  unfold denormC
  split_ifs <;> simp [hc]

/-- Helper: denormalizing the single-entry table scales the entry at
`(1, 2)` by `S[1, 2]`. -/
theorem denormC_cSingle (v : ℝ) :
    denormC ℝ 2 (Sf 2) (cSingle v) = cSingle (Sf 2 1 2 * v) := by
  funext r q
  by_cases h : r = 1 ∧ q = 2
  · obtain ⟨h1, h2⟩ := h
    subst h1
    subst h2
    show denormC ℝ 2 (Sf 2) (cSingle v) 1 2 = cSingle (Sf 2 1 2 * v) 1 2
    unfold denormC cSingle
    norm_num
    ring
  · rw [denormC_of_zero_entry 2 (Sf 2) (cSingle v) r q (by simp [cSingle, h])]
    simp [cSingle, h]

/-- Helper: denormalizing the zero table gives the zero table. -/
theorem denormC_zeroTable (N : ℕ) (S : ℕ → ℕ → ℝ) :
    denormC ℝ N S zeroTable = zeroTable := by
  funext r q
  rw [denormC_of_zero_entry N S zeroTable r q rfl]
  rfl

/-- Helper: `S[0, 0] = 1`. -/
theorem Sf_00 : Sf 2 0 0 = 1 := by
  rw [Sf]

/-- Helper: `S[0, 1] = 1`. -/
theorem Sf_01 : Sf 2 0 1 = 1 := by
  show Sf 2 0 (0 + 1) = 1
  rw [Sf, Sf_00]
  norm_num

/-- Helper: `S[0, 2] = 3/2`. -/
theorem Sf_02 : Sf 2 0 2 = 3 / 2 := by
  show Sf 2 0 (1 + 1) = 3 / 2
  rw [Sf, Sf_01]
  norm_num

/-- Helper: `S[1, 2] = (3/2)·√(4/3)`. -/
theorem Sf_12 : Sf 2 1 2 = 3 / 2 * Real.sqrt (4 / 3) := by
  show Sf 2 (0 + 1) 2 = _
  rw [Sf, if_pos (by norm_num : 0 + 1 ≤ 2 ∧ 2 ≤ 2), Sf_02]
  norm_num

/-- Helper: `S[1, 2]² = 3`. -/
theorem Sf_12_sq : Sf 2 1 2 ^ 2 = 3 := by
  rw [Sf_12]
  rw [mul_pow, Real.sq_sqrt (by norm_num : (0:ℝ) ≤ 4 / 3)]
  norm_num

/-- Helper: `S[1, 2] > 1`, so rescaling by it changes a nonzero value. -/
theorem Sf_12_gt_one : 1 < Sf 2 1 2 := by
  have hpos : 0 ≤ Sf 2 1 2 := by
    rw [Sf_12]
    positivity
  nlinarith [Sf_12_sq]


/-- Helper: the synthesis loop at the equator (sl = 0, cl = 1, zero
longitude tables `sp = 0`, `cp = 1`, `dt = 0`) over the single-entry
coefficient table produces `Xp = -ar^4 * w`. -/
theorem outer_equator_single (w ar : ℝ) :
    (outerUpTo ℝ 2 0 1 (cSingle w) zeroTable 0 ar (fun _ => 0) (fun _ => 1)
      2).1 = -(ar ^ 4 * w) := by
  simp only [outerUpTo, innerUpTo, innerStep, gchsF, gshcF, ghG, ghH,
    cSingle, zeroTable]
  norm_num [Pt, dPt, kF]


/-- Helper: at decimal date 2015.0 with epoch 2015.0 the time offset is
zero. -/
theorem dtOf_2015 : dtOf (2015 : ℚ) 2015 = 0 := by
  unfold dtOf round1
  rw [roundHE_lo (10 * (2015 : ℚ)) 20150 (by norm_num) (by norm_num)]
  norm_num

/-- Helper: the full `magnetic_field` computation at location (0, 0, 0),
date 2015.0, on a degree-2 model whose pre-denormalization table has the
single entry `g(2,1) = v`, publishes `X = -(a/r)^4 · S[1,2] · v`.  The
factor `S[1,2]` enters through the in-place denormalization that the call
applies to its current coefficient state. -/
theorem mfc_equator_single (v : ℝ) :
    (magneticFieldCompute 2 2015 2015 (cSingle v) zeroTable 0 0 0 false).X
      = -((EARTH_MEAN_RADIUS / 1000 / aEquatorKm) ^ 4 * (Sf 2 1 2 * v)) := by
  have hsp : (fun m => (spcp ℝ 0 1 m).1) = (fun _ : ℕ => (0:ℝ)) :=
    funext fun m => by rw [spcp_zero_one]
  have hcp : (fun m => (spcp ℝ 0 1 m).2) = (fun _ : ℕ => (1:ℝ)) :=
    funext fun m => by rw [spcp_zero_one]
  simp only [magneticFieldCompute, zero_mul]
  rw [geodetic_equator 0 aEquatorKm bPolarKm (by norm_num [aEquatorKm])]
  simp only [Real.sin_zero, Real.cos_zero, hsp, hcp, dtOf_2015,
    Rat.cast_zero, denormC_cSingle, denormC_zeroTable, sub_zero,
    Real.cos_zero, Real.sin_zero, mul_one, mul_zero, sub_zero,
    Bool.false_eq_true, if_false]
  rw [outer_equator_single]


/-- C2 is false as stated: two `magnetic_field` calls with identical
arguments and `date = None` return different magnetic elements.  With
`date = None` the call skips `reset_coefficients`, so the second call
re-applies the in-place denormalization `self.c *= S` to the already
scaled array: the first call publishes `X = -(a/r)^4·S[1,2]`, the second
`X = -(a/r)^4·S[1,2]^2`, and `S[1,2] = √3 ≠ 1`. -/
theorem c2_date_none_counterexample : c2Call2.2.X ≠ c2Call1.2.X := by
  have h1 : c2Call1.2.X
      = -((EARTH_MEAN_RADIUS / 1000 / aEquatorKm) ^ 4 * (Sf 2 1 2 * 1)) :=
    mfc_equator_single 1
  have hc : c2Call2.2.X
      = (magneticFieldCompute 2 2015 2015 (denormC ℝ 2 (Sf 2) (cSingle 1))
          (denormC ℝ 2 (Sf 2) zeroTable) 0 0 0 false).X := rfl
  have h2 : c2Call2.2.X
      = -((EARTH_MEAN_RADIUS / 1000 / aEquatorKm) ^ 4
          * (Sf 2 1 2 * (Sf 2 1 2 * 1))) := by
    rw [hc, denormC_cSingle, denormC_zeroTable]
    exact mfc_equator_single (Sf 2 1 2 * 1)
  have har : (0:ℝ) < EARTH_MEAN_RADIUS / 1000 / aEquatorKm := by
    norm_num [EARTH_MEAN_RADIUS, aEquatorKm]
  have har4 : (0:ℝ) < (EARTH_MEAN_RADIUS / 1000 / aEquatorKm) ^ 4 :=
    pow_pos har 4
  have hS := Sf_12_gt_one
  rw [h1, h2]
  intro heq
  have heq2 : (EARTH_MEAN_RADIUS / 1000 / aEquatorKm) ^ 4
        * (Sf 2 1 2 * (Sf 2 1 2 * 1))
      = (EARTH_MEAN_RADIUS / 1000 / aEquatorKm) ^ 4 * (Sf 2 1 2 * 1) :=
    neg_inj.mp heq
  have hzero : (EARTH_MEAN_RADIUS / 1000 / aEquatorKm) ^ 4 * Sf 2 1 2
      * (Sf 2 1 2 - 1) = 0 := by
    linear_combination heq2
  have hpos : 0 < (EARTH_MEAN_RADIUS / 1000 / aEquatorKm) ^ 4 * Sf 2 1 2
      * (Sf 2 1 2 - 1) :=
    mul_pos (mul_pos har4 (lt_trans one_pos hS)) (sub_pos.mpr hS)
  exact absurd hzero (ne_of_gt hpos)

/-- C2 (amended): purity holds whenever `date` is not `None`: such a call
first reloads the pristine coefficient table, so its result is a pure
function of (table, date, location) — independent of the incoming mutable
coefficient state — and the denormalization scaling by `S(n,m)` is applied
to that pristine table exactly once inside the evaluation.  With
`date = None` the previously scaled arrays are rescaled again and results
drift (see the counterexample). -/
theorem c2_purity_amended (N : ℕ) (tC tCd : ℕ → ℕ → ℝ) (tEp : ℚ)
    (st st2 : CoeffState) (lat lon h : ℝ) (fr : Bool) (d : ℚ) :
    (magneticFieldCall N tC tCd tEp st lat lon h fr (some d)).2
      = (magneticFieldCall N tC tCd tEp st2 lat lon h fr (some d)).2 ∧
    (magneticFieldCall N tC tCd tEp st lat lon h fr (some d)).2
      = magneticFieldCompute N tEp d tC tCd lat lon h fr :=
  ⟨rfl, rfl⟩

/-- C6: epoch selection chooses the 2015-lustrum table exactly when the
decimal date is strictly below `2020.0`, and the 2020-lustrum table
otherwise; in particular `2019.999` selects the 2015 table and `2020.0`
selects the 2020 table. -/
theorem c6_epoch_selection :
    (∀ d : ℚ, selectEpoch d = Epoch.wmm2015 ↔ d < 2020) ∧
    selectEpoch (2019.999 : ℚ) = Epoch.wmm2015 ∧
    selectEpoch (2020.0 : ℚ) = Epoch.wmm2020 := by
  refine ⟨fun d => ?_, by norm_num [selectEpoch], by norm_num [selectEpoch]⟩
  unfold selectEpoch
  split_ifs with hd <;> simp [hd]

/-- C3 is false as stated: a direct call of `magnetic_field` performs no
validation of latitude, longitude or frame (`_guard_clauses` is called only
by `__init__`), so a call with latitude `666`, longitude `999` and frame
`"BAD"` — all three invalid — raises no validation error at all. -/
theorem c3_no_validation_counterexample :
    90 < |(666 : ℚ)| ∧ 180 < |(999 : ℚ)| ∧ ¬ frameOk "BAD" ∧
    magneticFieldError true 2017 666 999 "BAD" = none :=
  ⟨by norm_num, by norm_num, by decide, by decide⟩

/-- C3 (amended): the validation of latitude ∈ [−90, 90],
longitude ∈ [−180, 180] and frame ∈ {NED, ENU} is performed by the
constructor `__init__` (before any field computation), not by
`magnetic_field`; a direct `magnetic_field` call can only raise the
unsupported-date error. -/
theorem c3_validation_in_constructor (dateGiven : Bool) (dateYear : ℤ)
    (lat lon : ℚ) (frame : String)
    (hdate : ¬ (dateGiven ∧ dateYear < 2015)) :
    magneticFieldError dateGiven dateYear lat lon frame = none ∧
    (initError dateGiven dateYear lat lon frame = none ↔
      |lat| ≤ 90 ∧ |lon| ≤ 180 ∧ frameOk frame) := by
  constructor
  · unfold magneticFieldError
    rw [if_neg hdate]
  · unfold initError guardClauses
    rw [if_neg hdate]
    constructor
    · intro hres
      by_cases h1 : 90 < |lat|
      · rw [if_pos h1] at hres
        exact absurd hres (by simp)
      by_cases h2 : 180 < |lon|
      · rw [if_neg h1, if_pos h2] at hres
        exact absurd hres (by simp)
      by_cases h3 : frameOk frame
      · exact ⟨not_lt.mp h1, not_lt.mp h2, h3⟩
      · rw [if_neg h1, if_neg h2, if_pos h3] at hres
        exact absurd hres (by simp)
    · rintro ⟨hlat, hlon, hfr⟩
      rw [if_neg (not_lt.mpr hlat), if_neg (not_lt.mpr hlon),
        if_neg (not_not_intro hfr)]

/-- Witness for the amended C3 at a concrete valid input. -/
theorem c3_validation_in_constructor_witness :
    ¬ ((true : Bool) ∧ (2017 : ℤ) < 2015) ∧
    (magneticFieldError true 2017 10 (-20) "NED" = none ∧
     (initError true 2017 10 (-20) "NED" = none ↔
       |(10 : ℚ)| ≤ 90 ∧ |(-20 : ℚ)| ≤ 180 ∧ frameOk "NED")) :=
  ⟨by decide, c3_validation_in_constructor true 2017 10 (-20) "NED" (by decide)⟩

/-- C4 is false as stated: in the code the table `dP` starts from
`np.zeros`, so `dP(0,0) = 0` (not `1`), and the diagonal recursion is
`dP(n,n) = cos(lat')·dP(n-1,n-1) + sin(lat')·P(n-1,n-1)` — the roles of
`sin` and `cos` are swapped relative to the claim.  At `sl = 1/2`,
`cl = 1/3`, degree `1`: the table holds `dP(1,1) = 1/2`, while the claimed
diagonal formula evaluates to `1/3` (even taking the actual `dP(0,0) = 0`). -/
theorem c4_derivative_recursion_counterexample :
    ¬ ClaimC4Recursion ℚ 1 (1/2) (1/3) ∧
    dPt ℚ 1 (1/2) (1/3) 0 0 = 0 ∧
    dPt ℚ 1 (1/2) (1/3) 1 1 = 1/2 ∧
    (1/2 : ℚ) * dPt ℚ 1 (1/2) (1/3) 0 0
      + (1/3 : ℚ) * Pt ℚ 1 (1/2) (1/3) 0 0 = 1/3 := by
  have h00 : dPt ℚ 1 (1/2) (1/3) 0 0 = 0 := by simp [dPt]
  have h11 : dPt ℚ 1 (1/2) (1/3) 1 1 = 1/2 := by norm_num [dPt, Pt]
  have hP00 : Pt ℚ 1 (1/2) (1/3) 0 0 = 1 := by norm_num [Pt]
  refine ⟨fun hclaim => ?_, h00, h11, by rw [h00, hP00]; norm_num⟩
  have h1 := hclaim.1
  rw [h00] at h1
  norm_num at h1

/-- C4 (amended): the derivative table satisfies `dP(0,0) = 0`; on the
diagonal `dP(n,n) = cos(lat')·dP(n-1,n-1) + sin(lat')·P(n-1,n-1)`; off the
diagonal the recursion is exactly as claimed,
`dP(m,n) = sin(lat')·dP(m,n-1) − cos(lat')·P(m,n-1) − k(m,n)·dP(m,n-2)`,
for all `1 ≤ n ≤ N`, `0 ≤ m ≤ n`. -/
theorem c4_derivative_recursion_amended (K : Type) [Field K] [DecidableEq K]
    (N : ℕ) (sl cl : K) :
    dPt K N sl cl 0 0 = 0 ∧
    ∀ n : ℕ, n ≤ N → 1 ≤ n → ∀ m : ℕ, m ≤ n →
      (m = n →
        dPt K N sl cl n n
          = cl * dPt K N sl cl (n - 1) (n - 1)
            + sl * Pt K N sl cl (n - 1) (n - 1)) ∧
      (m < n →
        dPt K N sl cl m n
          = sl * dPt K N sl cl m (n - 1) - cl * Pt K N sl cl m (n - 1)
            - kF K m n * dPt K N sl cl m (n - 2)) := by
  refine ⟨rfl, fun n hnN hn1 m hmn => ⟨fun hmeq => ?_, fun hlt => ?_⟩⟩
  · match n, hn1 with
    | 1, _ =>
      show dPt K N sl cl 1 1 = cl * dPt K N sl cl 0 0 + sl * Pt K N sl cl 0 0
      simp [dPt, hnN]
    | (nn + 2), _ =>
      show dPt K N sl cl (nn + 2) (nn + 2)
        = cl * dPt K N sl cl (nn + 1) (nn + 1)
          + sl * Pt K N sl cl (nn + 1) (nn + 1)
      rw [dPt]
      rw [if_pos ⟨hnN, le_refl _⟩, if_pos rfl]
      norm_num
  · match n, hn1 with
    | 1, _ =>
      have hm0 : m = 0 := Nat.lt_one_iff.mp hlt
      subst hm0
      show dPt K N sl cl 0 1
        = sl * dPt K N sl cl 0 0 - cl * Pt K N sl cl 0 0
          - kF K 0 1 * dPt K N sl cl 0 0
      simp [dPt, hnN]
    | (nn + 2), _ =>
      show dPt K N sl cl m (nn + 2)
        = sl * dPt K N sl cl m (nn + 1) - cl * Pt K N sl cl m (nn + 1)
          - kF K m (nn + 2) * dPt K N sl cl m nn
      rw [dPt]
      rw [if_pos ⟨hnN, hmn⟩, if_neg (Nat.ne_of_lt hlt)]

/-- Witness for the amended C4 at a concrete input. -/
theorem c4_derivative_recursion_amended_witness :
    dPt ℚ 2 (1/2) (1/3) 0 0 = 0 ∧
    ((1 : ℕ) = 1 →
      dPt ℚ 2 (1/2) (1/3) 1 1
        = (1/3 : ℚ) * dPt ℚ 2 (1/2) (1/3) 0 0
          + (1/2 : ℚ) * Pt ℚ 2 (1/2) (1/3) 0 0) :=
  ⟨(c4_derivative_recursion_amended ℚ 2 (1/2) (1/3)).1,
   ((c4_derivative_recursion_amended ℚ 2 (1/2) (1/3)).2 1 (by decide) (by decide)
      1 (by decide)).1⟩

/-- C7 is false as stated: the decimal date `2014.999` requests a date in
year 2014 (before 2015), yet `reset_date` raises nothing, because the
`datetime.date` it derives — ordinal of 2014-01-01 plus
`round(0.999·365) = 365` days — is 2015-01-01, and the year check runs on
that derived date. -/
theorem c7_decimal_boundary_counterexample :
    ⌊(2014.999 : ℚ)⌋ = 2014 ∧ (2014 : ℤ) < 2015 ∧
    derivedYearOfDecimal (2014.999 : ℚ) = 2015 ∧
    resetDateFromDecimal (2014.999 : ℚ) = none := by
  have hfl : ⌊(2014.999 : ℚ)⌋ = 2014 := by
    rw [Int.floor_eq_iff]
    norm_num
  have hdays : daysBeforeYear 2014 = 735233 := by decide
  have hyr : derivedYearOfDecimal (2014.999 : ℚ) = 2015 := by
    simp only [derivedYearOfDecimal, hfl]
    have htn : ((2014 : ℤ).toNat) = 2014 := rfl
    rw [htn, hdays]
    have hround : roundHE (((735233 : ℕ) : ℚ) + 1
        + ((2014.999 : ℚ) - ((2014 : ℕ) : ℚ)) * 365) = 735598 + 1 := by
      apply roundHE_hi
      · push_cast
        norm_num
      · push_cast
        norm_num
    rw [hround]
    decide
  refine ⟨hfl, by norm_num, hyr, ?_⟩
  unfold resetDateFromDecimal
  rw [hyr]
  norm_num

/-- C7 (amended): `reset_date` raises the unsupported-date error exactly
when the year of the *derived* model date is below 2015.  For a
`datetime.date` argument that year is the requested year, so the claimed
equivalence holds verbatim; for a decimal argument the derived year can
exceed the integer part of the request (see the counterexample). -/
theorem c7_unsupported_date_amended :
    (∀ year : ℤ, resetDateFromDate year = some WMMError.unsupportedDate
      ↔ year < 2015) ∧
    (∀ year : ℤ, 2015 ≤ year → resetDateFromDate year = none) ∧
    (∀ d : ℚ, resetDateFromDecimal d = some WMMError.unsupportedDate
      ↔ (derivedYearOfDecimal d : ℤ) < 2015) := by
  refine ⟨fun y => ?_, fun y hy => ?_, fun d => ?_⟩
  · unfold resetDateFromDate
    split_ifs with hcond <;> simp [hcond]
  · unfold resetDateFromDate
    rw [if_neg (not_lt.mpr hy)]
  · unfold resetDateFromDecimal
    split_ifs with hcond <;> simp [hcond]

/-- Witness for the amended C7 at a concrete input. -/
theorem c7_unsupported_date_amended_witness :
    (2015 : ℤ) ≤ 2020 ∧ resetDateFromDate 2020 = none :=
  ⟨by norm_num, c7_unsupported_date_amended.2.1 2020 (by norm_num)⟩

/-- C8: when the decimal date rounds (to one decimal) to the epoch `t0` of
the selected table, `dt = 0` and the extrapolated coefficients
`gh = c + dt·cd` coincide with the (denormalized) table values, for both
the g-slots and the transposed h-slots. -/
theorem c8_epoch_reference_no_secular (dd ep : ℚ) (hr : round1 dd = ep) :
    dtOf dd ep = 0 ∧
    ∀ (c cd : ℕ → ℕ → ℝ) (m n : ℕ),
      ghG ℝ c cd ((dtOf dd ep : ℚ) : ℝ) m n = c m n ∧
      ghH ℝ c cd ((dtOf dd ep : ℚ) : ℝ) m n = c n (m - 1) := by
  have h0 : dtOf dd ep = 0 := by
    unfold dtOf
    rw [hr]
    ring
  refine ⟨h0, fun c cd m n => ?_⟩
  rw [h0]
  unfold ghG ghH
  push_cast
  constructor <;> ring

/-- Witness for C8 at the concrete date `2015.04`, which rounds to the
epoch `2015.0`. -/
theorem c8_epoch_reference_no_secular_witness :
    round1 (2015.04 : ℚ) = 2015 ∧
    dtOf (2015.04 : ℚ) 2015 = 0 ∧
    ghG ℝ zeroTable zeroTable ((dtOf (2015.04 : ℚ) 2015 : ℚ) : ℝ) 3 4
      = zeroTable 3 4 := by
  have hr : round1 (2015.04 : ℚ) = 2015 := by
    unfold round1
    rw [roundHE_lo (10 * (2015.04 : ℚ)) 20150 (by norm_num) (by norm_num)]
    norm_num
  exact ⟨hr, (c8_epoch_reference_no_secular (2015.04 : ℚ) 2015 hr).1,
    ((c8_epoch_reference_no_secular (2015.04 : ℚ) 2015 hr).2
      zeroTable zeroTable 3 4).1⟩

/-- C9: the published elements satisfy `H = √(X²+Y²)` and `F = √(H²+Z²)`,
in both frames (the code computes H and F from the final, possibly
ENU-swapped X, Y, Z). -/
theorem c9_h_f_identities (N : ℕ) (ep dd : ℚ) (c0 cd0 : ℕ → ℕ → ℝ)
    (lat lon h : ℝ) (fr : Bool) (_hlat : |lat| ≤ 90) (_hlon : |lon| ≤ 180) :
    (magneticFieldCompute N ep dd c0 cd0 lat lon h fr).H
      = Real.sqrt ((magneticFieldCompute N ep dd c0 cd0 lat lon h fr).X ^ 2
        + (magneticFieldCompute N ep dd c0 cd0 lat lon h fr).Y ^ 2) ∧
    (magneticFieldCompute N ep dd c0 cd0 lat lon h fr).F
      = Real.sqrt ((magneticFieldCompute N ep dd c0 cd0 lat lon h fr).H ^ 2
        + (magneticFieldCompute N ep dd c0 cd0 lat lon h fr).Z ^ 2) :=
  ⟨rfl, rfl⟩

/-- Witness for C9 at the regression location (10°, −20°), height 10.5 km,
both identities instantiated in the NED frame. -/
theorem c9_h_f_identities_witness :
    |(10 : ℝ)| ≤ 90 ∧ |(-20 : ℝ)| ≤ 180 ∧
    (magneticFieldCompute 2 2015 2017 zeroTable zeroTable 10 (-20) 10.5
        false).H
      = Real.sqrt ((magneticFieldCompute 2 2015 2017 zeroTable zeroTable 10
          (-20) 10.5 false).X ^ 2
        + (magneticFieldCompute 2 2015 2017 zeroTable zeroTable 10 (-20) 10.5
            false).Y ^ 2) :=
  ⟨by norm_num, by norm_num,
   (c9_h_f_identities 2 2015 2017 zeroTable zeroTable 10 (-20) 10.5 false
      (by norm_num) (by norm_num)).1⟩

/-- C5: grivation is `D - longitude` above 55°, `D + longitude` below
−55°, and exactly `D` whenever `|latitude| ≤ 55`. -/
theorem c5_grivation_cases (N : ℕ) (ep dd : ℚ) (c0 cd0 : ℕ → ℕ → ℝ)
    (lat lon h : ℝ) (fr : Bool) :
    (55 < lat →
      (magneticFieldCompute N ep dd c0 cd0 lat lon h fr).GV
        = (magneticFieldCompute N ep dd c0 cd0 lat lon h fr).D - lon) ∧
    (lat < -55 →
      (magneticFieldCompute N ep dd c0 cd0 lat lon h fr).GV
        = (magneticFieldCompute N ep dd c0 cd0 lat lon h fr).D + lon) ∧
    (|lat| ≤ 55 →
      (magneticFieldCompute N ep dd c0 cd0 lat lon h fr).GV
        = (magneticFieldCompute N ep dd c0 cd0 lat lon h fr).D) := by
  have hGV : (magneticFieldCompute N ep dd c0 cd0 lat lon h fr).GV
      = grivationOf (magneticFieldCompute N ep dd c0 cd0 lat lon h fr).D
          lat lon := rfl
  rw [hGV]
  simp only [grivationOf]
  refine ⟨fun hgt => ?_, fun hlt => ?_, fun habs => ?_⟩
  · have hno : ¬ (lat < -55) := not_lt.mpr (by linarith)
    rw [if_pos hgt, if_neg hno]
  · have hno : ¬ (55 < lat) := not_lt.mpr (by linarith)
    rw [if_neg hno, if_pos hlt]
  · obtain ⟨hlo, hhi⟩ := abs_le.mp habs
    have hno1 : ¬ (55 < lat) := not_lt.mpr (by linarith)
    have hno2 : ¬ (lat < -55) := not_lt.mpr (by linarith)
    rw [if_neg hno1, if_neg hno2]

/-- Witness for C5: at latitude 60° the polar-cap correction applies. -/
theorem c5_grivation_cases_witness :
    (55 : ℝ) < 60 ∧
    (magneticFieldCompute 1 2015 2015 zeroTable zeroTable 60 7 0 false).GV
      = (magneticFieldCompute 1 2015 2015 zeroTable zeroTable 60 7 0
          false).D - 7 :=
  ⟨by norm_num,
   (c5_grivation_cases 1 2015 2015 zeroTable zeroTable 60 7 0 false).1
     (by norm_num)⟩

/-- C10: constructing the model with latitude 0.0 or longitude 0.0 skips
the initial field computation (the constructor tests the coordinates for
truthiness), leaving all eight magnetic elements `None`. -/
theorem c10_truthiness_skips_computation (N : ℕ) (tC tCd : ℕ → ℕ → ℝ)
    (ep dd : ℚ) (lat lon h : ℝ) (fr : Bool) (hz : lat = 0 ∨ lon = 0) :
    initWMM N tC tCd ep dd lat lon h fr
      = { X := none, Y := none, Z := none, H := none,
          F := none, I := none, D := none, GV := none } := by
  unfold initWMM
  rw [if_neg (by rcases hz with h0 | h0 <;> simp [h0])]

/-- Witness for C10: latitude 0 (the equator, a valid coordinate) yields a
model with all elements `None`. -/
theorem c10_truthiness_skips_computation_witness :
    ((0 : ℝ) = 0 ∨ (-20 : ℝ) = 0) ∧
    initWMM 1 zeroTable zeroTable 2015 2015 0 (-20) 0 false
      = { X := none, Y := none, Z := none, H := none,
          F := none, I := none, D := none, GV := none } :=
  ⟨Or.inl rfl,
   c10_truthiness_skips_computation 1 zeroTable zeroTable 2015 2015 0 (-20) 0
     false (Or.inl rfl)⟩

end WMM
